import Mathlib

/-!
A shallow embedding of the dependency-execution core of the `mg` package
(src/mg/deps.go and src/mg/procedure.go), together with theorems checking the
specification's claims against it.

Modelling choices:
* Go `error` values are `Option Err` (`none` is Go `nil`); concrete errors are
  either plain errors carrying their message or fatal-classified errors
  carrying an exit code and message.
* A dependency body is opaque Go code; for the engine all that matters is the
  behaviour of one invocation: return nil, return an error, or panic.  That
  behaviour is an `Outcome`.  Execution is observed through an event log so
  that "the body ran exactly once" is a statement about the log.
* The global registry `targetRunMap` (deps.go:291-294) is explicit state
  (`World`) threaded through every operation.
* The parallel driver `CtxDeps` launches one goroutine per dependency and
  joins on a WaitGroup before aggregating (deps.go:63-95).  It is modelled by
  running the workers in index order; the claims settled here concern which
  bodies are invoked and how the results are aggregated after the join, which
  are the same under any interleaving of the workers.
-/

namespace Mage

/-- A concrete (non-nil) Go error value.  `msg` is a plain error whose
`Error()` text is the string; `fatal` is an error produced by the external
`Fatal` constructor, carrying an exit code and message (spec §6). -/
inductive Err where
  | msg (s : String)
  | fatal (exit : Int) (text : String)
  deriving DecidableEq, Repr

/-- The `Error()` text of an error value. -/
def Err.text : Err → String
  | .msg s => s
  | .fatal _ t => t

/-- Modelled from the spec: the `ExitStatus` collaborator (§6) is not under
src/; it classifies an error into an exit code, a fatal error carrying its own
exit code and every other error getting the fixed non-zero default 1. -/
def ExitStatus : Err → Int
  | .fatal e _ => e
  | .msg _ => 1

/-- A value raised by `panic` inside a dependency body: Go's untyped nil, an
error value, or any other value (represented by its `%v` formatting). -/
inductive PanicVal where
  | nilVal
  | errVal (e : Err)
  | otherVal (s : String)
  deriving DecidableEq, Repr

/-- The behaviour of one invocation of a dependency body. -/
inductive Outcome where
  | ok
  | err (e : Err)
  | panic (v : PanicVal)
  deriving DecidableEq, Repr

def Outcome.isPanic : Outcome → Bool
  | .panic _ => true
  | _ => false

/-- The error value a returning (non-panicking) body produces (`none` = nil). -/
def outcomeErr : Outcome → Option Err
  | .ok => none
  | .err e => some e
  | .panic _ => none

/-- `recoverPanic` (deps.go:98-106): a recovered nil leaves the slot untouched,
a recovered error is stored as-is, any other value is formatted by
`fmt.Errorf("%v", err)`. -/
def recoverToErr : PanicVal → Option Err
  | .nilVal => none
  | .errVal e => some e
  | .otherVal s => some (.msg s)

/-- The error slot a parallel worker leaves behind for a body with the given
behaviour: a returned error is stored directly (deps.go:70-74), a panic goes
through `recoverPanic` (deps.go:69). -/
def workerErr : Outcome → Option Err
  | .ok => none
  | .err e => some e
  | .panic v => recoverToErr v

/-- A `Dependency` (deps.go:150-155): either a registry-backed `targetDep`
(identified by its identity string) or an externally implemented value, which
optionally exposes `NamedDependency` (deps.go:139-143) and whose
`RunDependency` runs its body every time (the engine trusts it to guard
itself).  `cid` identifies the custom body in the event log. -/
inductive Dependency where
  | target (tid : String)
  | custom (dname : Option String) (cid : String) (body : Outcome)
  deriving DecidableEq, Repr

/-- The `NamedDependency` label of a dependency, if it implements the
capability.  `targetDep` (a plain string type, deps.go:258) does not. -/
def Dependency.depName : Dependency → Option String
  | .custom (some n) _ _ => some n
  | _ => none

/-- A `targetRun` record (deps.go:296-300): the adapted body, whether the
`sync.Once` has fired, and the cached error written by the one execution. -/
structure TargetRun where
  fn : Outcome
  done : Bool
  err : Option Err
  deriving DecidableEq, Repr

/-- The global `targetRunMap` registry (deps.go:291-294). -/
abbrev World := List (String × TargetRun)

def wlookup (tid : String) : World → Option TargetRun
  | [] => none
  | (k, r) :: w => if k = tid then some r else wlookup tid w

def wset (tid : String) (r : TargetRun) : World → World
  | [] => []
  | (k, v) :: w => if k = tid then (tid, r) :: w else (k, v) :: wset tid r w

/-- Observable execution events: `invoke tid` records a `RunDependency` call
on the dependency with that identity, `run tid` records an actual execution of
its body. -/
inductive Event where
  | invoke (tid : String)
  | run (tid : String)
  deriving DecidableEq, Repr

/-- The result of one `RunDependency` call: a normal return carrying an error
value (`none` = nil), or a panic propagating out of the call. -/
inductive RunRes where
  | ret (e : Option Err)
  | panicked (v : PanicVal)
  deriving DecidableEq, Repr

structure RunOut where
  res : RunRes
  world : World
  log : List Event
  deriving DecidableEq, Repr

/-- `RunDependency` (deps.go:262-271 for `targetDep`): look the record up,
run the body under the once-guard, cache the error.  `sync.Once` marks itself
done even when the guarded function panics, in which case the assignment
`run.err = run.fn(ctx)` never completes, so the cached error is unchanged.
The `Verbose()` trace line (deps.go:265-267) is observational only and is not
modelled.  A custom dependency runs its own body on every call. -/
def runDep : Dependency → World → RunOut
  | .custom _ cid body, w =>
    match body with
    | .ok => ⟨.ret none, w, [.invoke cid, .run cid]⟩
    | .err e => ⟨.ret (some e), w, [.invoke cid, .run cid]⟩
    | .panic v => ⟨.panicked v, w, [.invoke cid, .run cid]⟩
  | .target tid, w =>
    match wlookup tid w with
    | none =>
      ⟨.panicked (.otherVal "runtime error: invalid memory address or nil pointer dereference"),
        w, [.invoke tid]⟩
    | some r =>
      if r.done then ⟨.ret r.err, w, [.invoke tid]⟩
      else
        match r.fn with
        | .ok => ⟨.ret none, wset tid ⟨r.fn, true, none⟩ w, [.invoke tid, .run tid]⟩
        | .err e => ⟨.ret (some e), wset tid ⟨r.fn, true, some e⟩ w, [.invoke tid, .run tid]⟩
        | .panic v => ⟨.panicked v, wset tid ⟨r.fn, true, r.err⟩ w, [.invoke tid, .run tid]⟩

/-! ## The target adapter (deps.go:159-247) -/

/-- A parameter position of a Go function type: a zero-field `mg.Namespace`
struct, a `context.Context`, or anything else. -/
inductive ParamKind where
  | nsParam
  | ctxParam
  | otherParam
  deriving DecidableEq, Repr

/-- A result position of a Go function type: `error` or anything else. -/
inductive RetKind where
  | errRet
  | otherRet
  deriving DecidableEq, Repr

/-- The reflected type of a Go function value. -/
structure FnType where
  params : List ParamKind
  rets : List RetKind
  deriving DecidableEq, Repr

/-- The shape check of `makeDependency` (deps.go:188-210): an optional leading
namespace parameter, then an optional context parameter, then nothing; an
optional error result, then nothing.  Returns
`(hasNamespace, hasContext, hasError)` or `none` for an unsupported shape. -/
def checkShape (t : FnType) : Option (Bool × Bool × Bool) :=
  let p1 := match t.params with
    | .nsParam :: rest => (true, rest)
    | ps => (false, ps)
  let p2 := match p1.2 with
    | .ctxParam :: rest => (true, rest)
    | ps => (false, ps)
  match p2.2 with
  | _ :: _ => none
  | [] =>
    match t.rets with
    | .errRet :: (_ :: _) => none
    | .errRet :: [] => some (p1.1, p2.1, true)
    | _ :: _ => none
    | [] => some (p1.1, p2.1, false)

/-- The wrapper closure synthesized by `makeDependency` (deps.go:212-228):
the underlying function runs either way; when the function has no error
result the wrapper returns nil. -/
def wrapOutcome (hasError : Bool) (body : Outcome) : Outcome :=
  match body with
  | .panic v => .panic v
  | .err e => if hasError then .err e else .ok
  | .ok => .ok

/-- A heterogeneous value passed to `Deps`/`SerialDeps`: something already
implementing `Dependency`, a function value (with its reflected type, its
`runtime.FuncForPC` name used as identity, and its body behaviour), or any
other value (carrying its `%T` type name). -/
inductive GoVal where
  | dep (d : Dependency)
  | fn (t : FnType) (fid : String) (body : Outcome)
  | other (typeName : String)
  deriving DecidableEq, Repr

def ParamKind.render : ParamKind → String
  | .nsParam => "mg.Namespace"
  | .ctxParam => "context.Context"
  | .otherParam => "T"

def RetKind.render : RetKind → String
  | .errRet => "error"
  | .otherRet => "T"

/-- The `%T` rendering of a function type, used by the adaptation error. -/
def renderFnType (t : FnType) : String :=
  "func(" ++ String.intercalate ", " (t.params.map ParamKind.render) ++ ")"
    ++ (match t.rets with
        | [] => ""
        | [r] => " " ++ r.render
        | rs => " (" ++ String.intercalate ", " (rs.map RetKind.render) ++ ")")

/-- The `%T` type name of a value, for `msgInvalidType`. -/
def GoVal.goTypeName : GoVal → String
  | .dep _ => "mg.Dependency"
  | .fn t _ _ => renderFnType t
  | .other tn => tn

/-- `msgInvalidType` (deps.go:249-250).  The double space is in the source
(the two concatenated string literals both border it with a space). -/
def msgInvalidType (tn : String) : String :=
  "Invalid type for dependency: " ++ tn ++
    ". Dependencies must  be a mage target function or implement mg.Dependency"

/-- `needTargetDep` (deps.go:274-283): insert a fresh record only if the
identity is still absent, keeping the record of the first adaptation. -/
def needTargetDep (tid : String) (fn : Outcome) (w : World) : World :=
  match wlookup tid w with
  | some _ => w
  | none => (tid, ⟨fn, false, none⟩) :: w

/-- `makeDependency` (deps.go:173-229).  A `Dependency` passes through
unchanged; a function value with a supported shape becomes a registry-backed
`targetDep` under its name (the `func(context.Context) error` fast path at
deps.go:177-178 produces the same result as the reflective path); anything
else is an adaptation error naming the offending type. -/
def makeDependency : GoVal → World → Except String Dependency × World
  | .dep d, w => (.ok d, w)
  | .fn t fid body, w =>
    match checkShape t with
    | none => (.error (msgInvalidType (renderFnType t)), w)
    | some (_, _, he) => (.ok (.target fid), needTargetDep fid (wrapOutcome he body) w)
  | .other tn, w => (.error (msgInvalidType tn), w)

/-- `makeDependencies` (deps.go:159-169): adapt in order, stopping at the
first failure. -/
def makeDependencies : List GoVal → World → Except String (List Dependency) × World
  | [], w => (.ok [], w)
  | v :: vs, w =>
    match makeDependency v w with
    | (.error m, w2) => (.error m, w2)
    | (.ok d, w2) =>
      match makeDependencies vs w2 with
      | (.error m, w3) => (.error m, w3)
      | (.ok ds, w3) => (.ok (d :: ds), w3)

/-! ## The execution drivers (deps.go:24-136) -/

/-- `changeExit` (deps.go:123-136). -/
def changeExit (old nw : Int) : Int :=
  if nw = 0 then old
  else if old = 0 then nw
  else if old = nw then old
  else 1

/-- The labeled diagnostic message for a failing dependency
(deps.go:87-90 and 36-39): prefix with the `NamedDependency` label when the
dependency exposes one. -/
def labelMsg (dn : Option String) (e : Err) : String :=
  match dn with
  | some n => n ++ ": " ++ e.text
  | none => e.text

/-- What a whole driver call does: return silently, panic with
`Fatal(exit, message)` raised by the driver itself, or let a panic raised in a
body escape uncaught. -/
inductive DriverOutcome where
  | ok
  | abort (exit : Int) (message : String)
  | goPanic (v : PanicVal)
  deriving DecidableEq, Repr

structure DriveOut where
  out : DriverOutcome
  world : World
  log : List Event
  deriving DecidableEq, Repr

/-- The worker fan-out of `CtxDeps` (deps.go:63-77): every dependency gets a
worker whose `RunDependency` call runs inside `recoverPanic`; the error slots
are read only after all workers have finished (`group.Wait()`).  Workers are
modelled in index order. -/
def runWorkers : List Dependency → World → List (Option Err) × World × List Event
  | [], w => ([], w, [])
  | d :: ds, w =>
    let r := runDep d w
    let e : Option Err := match r.res with
      | .ret oe => oe
      | .panicked v => recoverToErr v
    let rest := runWorkers ds r.world
    (e :: rest.1, rest.2.1, r.log ++ rest.2.2)

/-- The aggregation loop of `CtxDeps` (deps.go:79-92): fold `changeExit` over
the failing dependencies' exit statuses in array order, collecting their
labeled messages. -/
def aggregate : List (Dependency × Option Err) → Int → List String → Int × List String
  | [], ex, ms => (ex, ms)
  | (d, oe) :: l, ex, ms =>
    match oe with
    | none => aggregate l ex ms
    | some e => aggregate l (changeExit ex (ExitStatus e)) (ms ++ [labelMsg d.depName e])

/-- `CtxDeps` (deps.go:57-96): adapt, fan out, join, aggregate, and panic
with `Fatal(exit, joined messages)` when the merged exit status is
positive. -/
def ctxDeps (w : World) (vals : List GoVal) : DriveOut :=
  match makeDependencies vals w with
  | (.error m, w2) => ⟨.abort 1 m, w2, []⟩
  | (.ok deps, w2) =>
    let r := runWorkers deps w2
    let a := aggregate (deps.zip r.1) 0 []
    if 0 < a.1 then ⟨.abort a.1 (String.intercalate "\n" a.2), r.2.1, r.2.2⟩
    else ⟨.ok, r.2.1, r.2.2⟩

/-- The loop of `SerialCtxDeps` (deps.go:30-41): run each dependency in order
on the calling goroutine (no recovery scope, so a panic in a body propagates
out of the driver); at the first returned error panic with
`Fatal(ExitStatus(err), err.Error())`.  Note that the source computes the
labeled message `msg` (deps.go:36-39) but passes `err.Error()` to `Fatal`
(deps.go:40), so the label is dropped. -/
def runSerial : List Dependency → World → DriveOut
  | [], w => ⟨.ok, w, []⟩
  | d :: ds, w =>
    let r := runDep d w
    match r.res with
    | .panicked v => ⟨.goPanic v, r.world, r.log⟩
    | .ret none =>
      let rest := runSerial ds r.world
      ⟨rest.out, rest.world, r.log ++ rest.log⟩
    | .ret (some e) => ⟨.abort (ExitStatus e) e.text, r.world, r.log⟩

/-- `SerialCtxDeps` (deps.go:24-42). -/
def serialCtxDeps (w : World) (vals : List GoVal) : DriveOut :=
  match makeDependencies vals w with
  | (.error m, w2) => ⟨.abort 1 m, w2, []⟩
  | (.ok deps, w2) => runSerial deps w2

/-! ## Batch-description helpers used by the theorems -/

/-- A batch of custom dependencies, described by (label, log id, body). -/
def customs : List (Option String × String × Outcome) → List Dependency
  | [] => []
  | x :: l => Dependency.custom x.1 x.2.1 x.2.2 :: customs l

/-- The same batch as driver input values. -/
def customVals : List (Option String × String × Outcome) → List GoVal
  | [] => []
  | x :: l => GoVal.dep (Dependency.custom x.1 x.2.1 x.2.2) :: customVals l

def customVal (n : Option String) (cid : String) (b : Outcome) : GoVal :=
  GoVal.dep (Dependency.custom n cid b)

/-- Descriptors for a batch of always-succeeding custom dependencies. -/
def okd : List (Option String × String) → List (Option String × String × Outcome)
  | [] => []
  | x :: l => (x.1, x.2, Outcome.ok) :: okd l

/-- The event log produced by running a described custom batch in order. -/
def customEvents : List (Option String × String × Outcome) → List Event
  | [] => []
  | x :: l => .invoke x.2.1 :: .run x.2.1 :: customEvents l

/-- Aggregation restricted to what it actually depends on: the label and the
error slot of each position. -/
def aggCustom : List (Option String × Option Err) → Int → List String → Int × List String
  | [], ex, ms => (ex, ms)
  | (n, oe) :: l, ex, ms =>
    match oe with
    | none => aggCustom l ex ms
    | some e => aggCustom l (changeExit ex (ExitStatus e)) (ms ++ [labelMsg n e])

/-- The merged exit status of a described batch, as the claim formulates it:
fold `changeExit` over the failing positions' exit statuses in list order,
starting from 0. -/
def fexit (l : List (Option String × String × Outcome)) : Int :=
  (l.filterMap (fun x => workerErr x.2.2)).foldl (fun a e => changeExit a (ExitStatus e)) 0

/-- The labeled messages of the failing positions of a described batch, in
list order. -/
def fmsgs (l : List (Option String × String × Outcome)) : List String :=
  l.filterMap (fun x => (workerErr x.2.2).map (labelMsg x.1))

/-- The adaptation error a value would cause, if any. -/
def adaptErr : GoVal → Option String
  | .dep _ => none
  | .fn t _ _ =>
    match checkShape t with
    | some _ => none
    | none => some (msgInvalidType (renderFnType t))
  | .other tn => some (msgInvalidType tn)

/-- The adaptation error of the first unsupported value in a batch, if any. -/
def firstBadMsg : List GoVal → Option String
  | [] => none
  | v :: vs =>
    match adaptErr v with
    | some m => some m
    | none => firstBadMsg vs

/-! ## Procedure / Product (src/mg/procedure.go) -/

/-- The once-state of a `product` (procedure.go:51-56); the implementation and
name are carried by the owning procedure state and the key. -/
structure ProdState where
  done : Bool
  err : Option Err
  deriving DecidableEq, Repr

/-- A `procedure` (procedure.go:21-30): the fixed implementation (modelled as
the behaviour of running it with a given name) and the name-to-product
table. -/
structure ProcState where
  impl : String → Outcome
  products : List (String × ProdState)

/-- The heap of live procedure instances, keyed by an allocation id; distinct
`NewProcedure` calls yield distinct instances. -/
abbrev ProcWorld := List (Nat × ProcState)

def plookup (pid : Nat) : ProcWorld → Option ProcState
  | [] => none
  | (k, p) :: l => if k = pid then some p else plookup pid l

def pset (pid : Nat) (p : ProcState) : ProcWorld → ProcWorld
  | [] => []
  | (k, v) :: l => if k = pid then (pid, p) :: l else (k, v) :: pset pid p l

def prodGet (nm : String) : List (String × ProdState) → Option ProdState
  | [] => none
  | (k, st) :: l => if k = nm then some st else prodGet nm l

def prodSet (nm : String) (st : ProdState) : List (String × ProdState) → List (String × ProdState)
  | [] => []
  | (k, v) :: l => if k = nm then (nm, st) :: l else (k, v) :: prodSet nm st l

/-- `procedure.newProduct` (procedure.go:34-47): under the procedure's mutex,
return the existing product for the name or register a fresh one.  The
returned product is identified by (procedure id, name). -/
def newProduct (pw : ProcWorld) (pid : Nat) (nm : String) : (Nat × String) × ProcWorld :=
  match plookup pid pw with
  | none => ((pid, nm), pw)
  | some ps =>
    match prodGet nm ps.products with
    | some _ => ((pid, nm), pw)
    | none => ((pid, nm), pset pid ⟨ps.impl, (nm, ⟨false, none⟩) :: ps.products⟩ pw)

/-- `product.RunDependency` (procedure.go:61-66): run the implementation with
the product's name once under the product's own `sync.Once`, caching the
error; as for `targetRun`, a panicking implementation marks the once done
without writing the cached error.  The log records executions of the
implementation as (procedure id, name) pairs. -/
def runProduct (pw : ProcWorld) (pid : Nat) (nm : String) :
    RunRes × ProcWorld × List (Nat × String) :=
  match plookup pid pw with
  | none => (.ret none, pw, [])
  | some ps =>
    match prodGet nm ps.products with
    | none => (.ret none, pw, [])
    | some st =>
      if st.done then (.ret st.err, pw, [])
      else
        match ps.impl nm with
        | .ok =>
          (.ret none, pset pid ⟨ps.impl, prodSet nm ⟨true, none⟩ ps.products⟩ pw, [(pid, nm)])
        | .err e =>
          (.ret (some e), pset pid ⟨ps.impl, prodSet nm ⟨true, some e⟩ ps.products⟩ pw,
            [(pid, nm)])
        | .panic v =>
          (.panicked v, pset pid ⟨ps.impl, prodSet nm ⟨true, st.err⟩ ps.products⟩ pw,
            [(pid, nm)])

/-- The state of the product with a given name on a given procedure. -/
def prodStateIn (pw : ProcWorld) (pid : Nat) (nm : String) : Option ProdState :=
  match plookup pid pw with
  | none => none
  | some ps => prodGet nm ps.products

/-! ## Helper lemmas -/

theorem depName_custom (n : Option String) (c : String) (b : Outcome) :
    (Dependency.custom n c b).depName = n := by
  cases n <;> rfl

theorem customs_append (a b : List (Option String × String × Outcome)) :
    customs (a ++ b) = customs a ++ customs b := by
  induction a with
  | nil => rfl
  | cons x a ih => simp [customs, ih]

theorem customEvents_append (a b : List (Option String × String × Outcome)) :
    customEvents (a ++ b) = customEvents a ++ customEvents b := by
  induction a with
  | nil => rfl
  | cons x a ih => simp [customEvents, ih]

theorem mkDeps_customVals (l : List (Option String × String × Outcome)) (w : World) :
    makeDependencies (customVals l) w = (.ok (customs l), w) := by
  induction l generalizing w with
  | nil => rfl
  | cons x l ih => simp [customVals, customs, makeDependencies, makeDependency, ih]

theorem runWorkers_customs (l : List (Option String × String × Outcome)) (w : World) :
    runWorkers (customs l) w = (l.map (fun x => workerErr x.2.2), w, customEvents l) := by
  induction l generalizing w with
  | nil => rfl
  | cons x l ih =>
    obtain ⟨n, cid, b⟩ := x
    cases b <;>
      simp only [customs, runWorkers, runDep, customEvents, workerErr, recoverToErr,
        List.map_cons, List.cons_append, List.nil_append, ih]

theorem aggregate_customs (l : List (Option String × String × Outcome))
    (ex : Int) (ms : List String) :
    aggregate ((customs l).zip (l.map (fun x => workerErr x.2.2))) ex ms
      = aggCustom (l.map (fun x => (x.1, workerErr x.2.2))) ex ms := by
  induction l generalizing ex ms with
  | nil => rfl
  | cons x l ih =>
    obtain ⟨n, cid, b⟩ := x
    cases h : workerErr b with
    | none =>
      simp only [customs, List.map_cons, List.zip_cons_cons, h, aggregate, aggCustom,
        depName_custom]
      exact ih ex ms
    | some e =>
      simp only [customs, List.map_cons, List.zip_cons_cons, h, aggregate, aggCustom,
        depName_custom]
      exact ih _ _

theorem ctxDeps_customs (w : World) (l : List (Option String × String × Outcome)) :
    ctxDeps w (customVals l) =
      (if 0 < (aggCustom (l.map (fun x => (x.1, workerErr x.2.2))) 0 []).1 then
        ⟨.abort (aggCustom (l.map (fun x => (x.1, workerErr x.2.2))) 0 []).1
          (String.intercalate "\n" (aggCustom (l.map (fun x => (x.1, workerErr x.2.2))) 0 []).2),
          w, customEvents l⟩
      else ⟨.ok, w, customEvents l⟩) := by
  simp [ctxDeps, mkDeps_customVals, runWorkers_customs, aggregate_customs]

theorem aggCustom_fst (ps : List (Option String × Option Err)) (ex : Int) (ms : List String) :
    (aggCustom ps ex ms).1
      = (ps.filterMap Prod.snd).foldl (fun a e => changeExit a (ExitStatus e)) ex := by
  induction ps generalizing ex ms with
  | nil => rfl
  | cons p ps ih =>
    obtain ⟨n, oe⟩ := p
    cases oe <;> simp [aggCustom, List.filterMap_cons, ih]

theorem aggCustom_snd (ps : List (Option String × Option Err)) (ex : Int) (ms : List String) :
    (aggCustom ps ex ms).2
      = ms ++ ps.filterMap (fun p => p.2.map (labelMsg p.1)) := by
  induction ps generalizing ex ms with
  | nil => simp [aggCustom]
  | cons p ps ih =>
    obtain ⟨n, oe⟩ := p
    cases oe <;> simp [aggCustom, List.filterMap_cons, ih]

theorem aggregate_fst (ps : List (Dependency × Option Err)) (ex : Int) (ms : List String) :
    (aggregate ps ex ms).1
      = (ps.filterMap Prod.snd).foldl (fun a e => changeExit a (ExitStatus e)) ex := by
  induction ps generalizing ex ms with
  | nil => rfl
  | cons p ps ih =>
    obtain ⟨d, oe⟩ := p
    cases oe <;> simp [aggregate, List.filterMap_cons, ih]

theorem aggCustom_nones (ns : List (Option String)) (ex : Int) (ms : List String) :
    aggCustom (ns.map (fun n => (n, (none : Option Err)))) ex ms = (ex, ms) := by
  induction ns with
  | nil => rfl
  | cons n ns ih => simp [aggCustom, ih]

theorem serialCtxDeps_customs (w : World) (l : List (Option String × String × Outcome)) :
    serialCtxDeps w (customVals l) = runSerial (customs l) w := by
  simp [serialCtxDeps, mkDeps_customVals]

theorem runSerial_okd (pre : List (Option String × String)) (rest : List Dependency)
    (w : World) :
    runSerial (customs (okd pre) ++ rest) w =
      ⟨(runSerial rest w).out, (runSerial rest w).world,
        customEvents (okd pre) ++ (runSerial rest w).log⟩ := by
  induction pre with
  | nil => simp [customs, okd, customEvents]
  | cons x pre ih =>
    obtain ⟨n, cid⟩ := x
    simp only [customs, okd, customEvents, runSerial, runDep, List.cons_append,
      List.nil_append, List.append_eq, ih]

theorem serial_panic (w : World) (pre : List (Option String × String)) (n : Option String)
    (cid : String) (v : PanicVal) (post : List (Option String × String × Outcome)) :
    serialCtxDeps w (customVals (okd pre ++ (n, cid, Outcome.panic v) :: post)) =
      ⟨.goPanic v, w, customEvents (okd pre) ++ [.invoke cid, .run cid]⟩ := by
  rw [serialCtxDeps_customs, customs_append, runSerial_okd]
  simp [customs, runSerial, runDep]

theorem changeExit_zero_left (x : Int) : changeExit 0 x = x := by
  by_cases hx : x = 0 <;> simp [changeExit, hx]

theorem mkDep_bad (v : GoVal) (m : String) (h : adaptErr v = some m) (w : World) :
    makeDependency v w = (.error m, w) := by
  cases v with
  | dep d => simp [adaptErr] at h
  | fn t fid b =>
    simp only [adaptErr] at h
    cases hs : checkShape t with
    | none =>
      rw [hs] at h
      simp only [Option.some.injEq] at h
      subst h
      simp [makeDependency, hs]
    | some s => rw [hs] at h; simp at h
  | other tn =>
    simp only [adaptErr, Option.some.injEq] at h
    subst h
    rfl

theorem mkDep_good (v : GoVal) (h : adaptErr v = none) (w : World) :
    ∃ d w2, makeDependency v w = (.ok d, w2) := by
  cases v with
  | dep d => exact ⟨d, w, rfl⟩
  | fn t fid b =>
    simp only [adaptErr] at h
    cases hs : checkShape t with
    | none => rw [hs] at h; simp at h
    | some s =>
      obtain ⟨hn, hc, he⟩ := s
      exact ⟨.target fid, needTargetDep fid (wrapOutcome he b) w, by simp [makeDependency, hs]⟩
  | other tn => simp [adaptErr] at h

theorem mkDeps_bad (vals : List GoVal) (m : String) (h : firstBadMsg vals = some m)
    (w : World) : ∃ w2, makeDependencies vals w = (.error m, w2) := by
  induction vals generalizing w with
  | nil => simp [firstBadMsg] at h
  | cons v vs ih =>
    simp only [firstBadMsg] at h
    cases ha : adaptErr v with
    | some m' =>
      rw [ha] at h
      simp only [Option.some.injEq] at h
      subst h
      exact ⟨w, by simp [makeDependencies, mkDep_bad v m' ha w]⟩
    | none =>
      rw [ha] at h
      obtain ⟨d, w2, hd⟩ := mkDep_good v ha w
      obtain ⟨w3, h3⟩ := ih h w2
      exact ⟨w3, by simp [makeDependencies, hd, h3]⟩

theorem plookup_pset_eq (pid : Nat) (p : ProcState) (pw : ProcWorld) (q : ProcState)
    (h : plookup pid pw = some q) : plookup pid (pset pid p pw) = some p := by
  induction pw with
  | nil => simp [plookup] at h
  | cons x l ih =>
    obtain ⟨k, v⟩ := x
    by_cases hk : k = pid
    · subst hk; simp [pset, plookup]
    · simp only [plookup, if_neg hk] at h
      simp [pset, plookup, hk, ih h]

theorem plookup_pset_ne (pid qid : Nat) (p : ProcState) (pw : ProcWorld)
    (h : qid ≠ pid) : plookup qid (pset pid p pw) = plookup qid pw := by
  induction pw with
  | nil => rfl
  | cons x l ih =>
    obtain ⟨k, v⟩ := x
    by_cases hk : k = pid
    · subst hk
      simp [pset, plookup, Ne.symm h]
    · simp [pset, plookup, hk, ih]

theorem prodGet_prodSet_ne (nm nm' : String) (st : ProdState)
    (l : List (String × ProdState)) (h : nm' ≠ nm) :
    prodGet nm' (prodSet nm st l) = prodGet nm' l := by
  induction l with
  | nil => rfl
  | cons x l ih =>
    obtain ⟨k, v⟩ := x
    by_cases hk : k = nm
    · subst hk
      simp [prodSet, prodGet, Ne.symm h]
    · simp [prodSet, prodGet, hk, ih]

theorem ctx_mid_congr (w : World) (pre post : List (Option String × String × Outcome))
    (n : Option String) (cid : String) (b1 b2 : Outcome) (h : workerErr b1 = workerErr b2) :
    ctxDeps w (customVals (pre ++ (n, cid, b1) :: post))
      = ctxDeps w (customVals (pre ++ (n, cid, b2) :: post)) := by
  rw [ctxDeps_customs, ctxDeps_customs]
  have h1 : (pre ++ (n, cid, b1) :: post).map (fun x => (x.1, workerErr x.2.2))
      = (pre ++ (n, cid, b2) :: post).map (fun x => (x.1, workerErr x.2.2)) := by
    simp [h]
  have h2 : customEvents (pre ++ (n, cid, b1) :: post)
      = customEvents (pre ++ (n, cid, b2) :: post) := by
    rw [customEvents_append, customEvents_append]
    rfl
  rw [h1, h2]

/-! ## The claims -/

/-- C2: for every parallel batch, the driver invokes `RunDependency` on all
dependencies (every body is invoked exactly once, in index order, whatever
each body does — return, fail, or panic) and only aggregates afterwards; the
failure of any dependency does not prevent, skip, or cancel the execution of
any other dependency in the batch. -/
theorem c2_parallel_no_skip (w : World) (l : List (Option String × String × Outcome)) :
    (ctxDeps w (customVals l)).log = customEvents l ∧
    (ctxDeps w (customVals l)).world = w := by
  rw [ctxDeps_customs]
  by_cases hc : 0 < (aggCustom (l.map fun x => (x.1, workerErr x.2.2)) 0 []).1 <;>
    simp [hc]

/-- C3: a serial batch runs its dependencies strictly in list order, each
completing before the next starts; at the first dependency whose
`RunDependency` returns a non-nil error the driver panics with
`Fatal(ExitStatus(err), ...)` carrying that single dependency's exit status,
and no dependency after it is invoked. -/
theorem c3_serial_fail_fast (w : World) (pre : List (Option String × String))
    (n : Option String) (fid : String) (e : Err)
    (post : List (Option String × String × Outcome)) :
    serialCtxDeps w (customVals (okd pre ++ (n, fid, Outcome.err e) :: post)) =
      ⟨.abort (ExitStatus e) e.text, w,
        customEvents (okd pre) ++ [.invoke fid, .run fid]⟩ := by
  rw [serialCtxDeps_customs, customs_append, runSerial_okd]
  simp [customs, runSerial, runDep]

/-- C5 (code behaviour at the failing input): a serial batch whose first
failing dependency implements `NamedDependency` panics with the bare error
text, not the labeled "label: text" message — the source computes the labeled
message (deps.go:36-39) and then passes `err.Error()` to `Fatal`
(deps.go:40). -/
theorem c5_serial_drops_label :
    serialCtxDeps [] [customVal (some "G") "g" (.err (.msg "boom"))] =
      ⟨.abort 1 "boom", [], [.invoke "g", .run "g"]⟩ ∧
    labelMsg (some "G") (.msg "boom") = "G: boom" ∧
    DriverOutcome.abort 1 "boom" ≠ DriverOutcome.abort 1 "G: boom" := by
  refine ⟨rfl, rfl, by decide⟩

/-- C6 (counterexample): a FatalAbort raised inside a dependency body of a
parallel batch does not unwind through the parallel driver unchanged — the
worker's recovery scope catches it, and the driver re-aggregates it with its
siblings into a new FatalAbort with a different exit status and message. -/
theorem c6_counterexample :
    (ctxDeps [] [customVal none "a" (.panic (.errVal (.fatal 2 "inner"))),
        customVal none "b" (.err (.msg "b"))]).out = .abort 1 "inner\nb" ∧
    DriverOutcome.abort 1 "inner\nb" ≠ .goPanic (.errVal (.fatal 2 "inner")) ∧
    DriverOutcome.abort 1 "inner\nb" ≠ .abort 2 "inner" := by
  refine ⟨rfl, by decide, by decide⟩

/-- C6 (amended): a FatalAbort raised inside a dependency body unwinds
through the serial driver unchanged, but the parallel driver's per-worker
recovery scope catches it, records it as that worker's error, and the batch
behaves exactly as if the dependency had returned the fatal error, which is
then re-aggregated after all workers finish. -/
theorem c6_fatal_propagation :
    (∀ (w : World) (pre : List (Option String × String)) (n : Option String)
        (cid : String) (ex : Int) (m : String)
        (post : List (Option String × String × Outcome)),
      serialCtxDeps w
          (customVals (okd pre ++ (n, cid, .panic (.errVal (.fatal ex m))) :: post))
        = ⟨.goPanic (.errVal (.fatal ex m)), w,
            customEvents (okd pre) ++ [.invoke cid, .run cid]⟩) ∧
    (∀ (w : World) (pre post : List (Option String × String × Outcome))
        (n : Option String) (cid : String) (ex : Int) (m : String),
      ctxDeps w (customVals (pre ++ (n, cid, .panic (.errVal (.fatal ex m))) :: post))
        = ctxDeps w (customVals (pre ++ (n, cid, .err (.fatal ex m)) :: post))) := by
  constructor
  · intro w pre n cid ex m post
    exact serial_panic w pre n cid _ post
  · intro w pre post n cid ex m
    exact ctx_mid_congr w pre post n cid _ _ rfl

/-- C7 (counterexample): in a serial batch a panic raised inside a
dependency's body is not converted into an ordinary error — there is no
recovery scope in `SerialCtxDeps`, so the panic escapes the driver uncaught
instead of being aggregated. -/
theorem c7_counterexample :
    (serialCtxDeps [] [customVal none "p" (.panic (.otherVal "boom"))]).out
      = .goPanic (.otherVal "boom") ∧
    DriverOutcome.goPanic (.otherVal "boom") ≠ .abort 1 "boom" := by
  refine ⟨rfl, by decide⟩

/-- C7 (amended): in a parallel batch a panic raised inside a dependency's
body is converted into an ordinary error for that dependency — the raised
value as-is if it is an error, otherwise formatted as a generic error — and
the batch aggregates it exactly like a returned error; in a serial batch the
panic propagates out of the driver uncaught. -/
theorem c7_panic_recovery :
    (∀ e : Err, recoverToErr (.errVal e) = some e) ∧
    (∀ s : String, recoverToErr (.otherVal s) = some (.msg s)) ∧
    (∀ (w : World) (pre post : List (Option String × String × Outcome))
        (n : Option String) (cid : String) (e : Err),
      ctxDeps w (customVals (pre ++ (n, cid, .panic (.errVal e)) :: post))
        = ctxDeps w (customVals (pre ++ (n, cid, .err e) :: post))) ∧
    (∀ (w : World) (pre post : List (Option String × String × Outcome))
        (n : Option String) (cid : String) (s : String),
      ctxDeps w (customVals (pre ++ (n, cid, .panic (.otherVal s)) :: post))
        = ctxDeps w (customVals (pre ++ (n, cid, .err (.msg s)) :: post))) ∧
    (∀ (w : World) (pre : List (Option String × String)) (n : Option String)
        (cid : String) (v : PanicVal) (post : List (Option String × String × Outcome)),
      serialCtxDeps w (customVals (okd pre ++ (n, cid, .panic v) :: post))
        = ⟨.goPanic v, w, customEvents (okd pre) ++ [.invoke cid, .run cid]⟩) := by
  refine ⟨fun e => rfl, fun s => rfl, ?_, ?_, ?_⟩
  · intro w pre post n cid e
    exact ctx_mid_congr w pre post n cid _ _ rfl
  · intro w pre post n cid s
    exact ctx_mid_congr w pre post n cid _ _ rfl
  · intro w pre n cid v post
    exact serial_panic w pre n cid v post

/-- C8: a batch (parallel or serial) containing a value of unsupported shape
aborts with the adaptation error naming the offending type (via `Fatal(1, ...)`)
before invoking any dependency body — the log is empty, so no body in the
batch runs, including bodies of valid values positioned earlier in the
list. -/
theorem c8_adaptation_aborts (w : World) (vals : List GoVal) (m : String)
    (h : firstBadMsg vals = some m) :
    (ctxDeps w vals).out = .abort 1 m ∧ (ctxDeps w vals).log = [] ∧
    (serialCtxDeps w vals).out = .abort 1 m ∧ (serialCtxDeps w vals).log = [] := by
  obtain ⟨w2, h2⟩ := mkDeps_bad vals m h w
  simp [ctxDeps, serialCtxDeps, h2]

/-- Witness for C8: a batch holding a valid custom dependency followed by an
`int` value aborts with the message naming `int`, with an empty execution
log. -/
theorem c8_witness :
    firstBadMsg [customVal none "a" .ok, GoVal.other "int"]
      = some (msgInvalidType "int") ∧
    (ctxDeps [] [customVal none "a" .ok, GoVal.other "int"]).out
      = .abort 1 (msgInvalidType "int") ∧
    (ctxDeps [] [customVal none "a" .ok, GoVal.other "int"]).log = [] ∧
    (serialCtxDeps [] [customVal none "a" .ok, GoVal.other "int"]).log = [] := by
  have H := c8_adaptation_aborts [] [customVal none "a" .ok, GoVal.other "int"]
    (msgInvalidType "int") rfl
  exact ⟨rfl, H.1, H.2.1, H.2.2.2⟩

/-- C10: in the parallel driver a body that panics with a nil value leaves
its error slot untouched (`recoverPanic`'s nil case records nothing), so the
dependency counts as having succeeded: a batch in which every other
dependency succeeds returns silently with no abort signal, even though the
nil-panicking body did run. -/
theorem c10_nil_panic_is_success :
    recoverToErr .nilVal = none ∧
    ∀ (w : World) (pre post : List (Option String × String)) (n : Option String)
        (cid : String),
      (ctxDeps w (customVals (okd pre ++ (n, cid, .panic .nilVal) :: okd post))).out
        = .ok ∧
      (ctxDeps w (customVals (okd pre ++ (n, cid, .panic .nilVal) :: okd post))).log
        = customEvents (okd pre) ++ [.invoke cid, .run cid] ++ customEvents (okd post) := by
  refine ⟨rfl, ?_⟩
  intro w pre post n cid
  have hins : ∀ (q : List (Option String × String)),
      (okd q).map (fun x => (x.1, workerErr x.2.2))
        = (q.map Prod.fst).map (fun nn => (nn, (none : Option Err))) := by
    intro q
    induction q with
    | nil => rfl
    | cons y q ih =>
      simp only [okd, List.map_cons, ih]
      rfl
  have hagg : aggCustom ((okd pre ++ (n, cid, Outcome.panic .nilVal) :: okd post).map
      (fun x => (x.1, workerErr x.2.2))) 0 [] = (0, []) := by
    rw [List.map_append, List.map_cons, hins, hins]
    have hjoin : (pre.map Prod.fst).map (fun nn => (nn, (none : Option Err)))
        ++ ((n, cid, Outcome.panic .nilVal).1,
              workerErr (n, cid, Outcome.panic .nilVal).2.2)
          :: (post.map Prod.fst).map (fun nn => (nn, (none : Option Err)))
        = (pre.map Prod.fst ++ n :: post.map Prod.fst).map
            (fun nn => (nn, (none : Option Err))) := by
      simp [workerErr, recoverToErr]
    rw [hjoin]
    exact aggCustom_nones _ 0 []
  rw [ctxDeps_customs, hagg]
  simp [customEvents_append, customEvents]

/-- C4: the exit-status merge function `changeExit` satisfies
merge(0,0)=0, merge(0,x)=x, merge(x,0)=x, merge(x,x)=x, and merge(x,y)=1 for
distinct nonzero x and y; and the parallel driver folds it pairwise in array
order over the failing dependencies' exit statuses, starting from 0 (both for
the source aggregation loop over arbitrary dependency/error pairs and for the
driver outcome of a whole custom batch). -/
theorem c4_exit_merge :
    (∀ x : Int, changeExit 0 x = x) ∧
    (∀ x : Int, changeExit x 0 = x) ∧
    (∀ x : Int, changeExit x x = x) ∧
    (∀ x y : Int, x ≠ 0 → y ≠ 0 → x ≠ y → changeExit x y = 1) ∧
    (∀ (ps : List (Dependency × Option Err)) (ex : Int) (ms : List String),
      (aggregate ps ex ms).1
        = (ps.filterMap Prod.snd).foldl (fun a e => changeExit a (ExitStatus e)) ex) ∧
    (∀ (w : World) (l : List (Option String × String × Outcome)),
      (0 < fexit l →
        (ctxDeps w (customVals l)).out
          = .abort (fexit l) (String.intercalate "\n" (fmsgs l))) ∧
      (¬ 0 < fexit l → (ctxDeps w (customVals l)).out = .ok)) := by
  refine ⟨?_, ?_, ?_, ?_, aggregate_fst, ?_⟩
  · intro x
    by_cases hx : x = 0 <;> simp [changeExit, hx]
  · intro x
    simp [changeExit]
  · intro x
    by_cases hx : x = 0 <;> simp [changeExit, hx]
  · intro x y hx hy hxy
    simp [changeExit, hx, hy, hxy]
  · intro w l
    have hfst : (aggCustom (l.map fun x => (x.1, workerErr x.2.2)) 0 []).1 = fexit l := by
      rw [aggCustom_fst, fexit, List.filterMap_map]
      rfl
    have hsnd : (aggCustom (l.map fun x => (x.1, workerErr x.2.2)) 0 []).2 = fmsgs l := by
      rw [aggCustom_snd, fmsgs, List.filterMap_map]
      rfl
    rw [ctxDeps_customs, hfst, hsnd]
    constructor
    · intro hpos
      simp [hpos]
    · intro hneg
      simp [hneg]

/-- Witness for C4: merging the distinct nonzero statuses 2 and 3 yields 1,
and a parallel batch failing with statuses 1 and 3 aborts with the folded
status 1 and both messages. -/
theorem c4_witness :
    ((2 : Int) ≠ 0) ∧ ((3 : Int) ≠ 0) ∧ ((2 : Int) ≠ 3) ∧ changeExit 2 3 = 1 ∧
    (ctxDeps [] (customVals [(none, "a", Outcome.err (Err.msg "x")),
        (none, "b", Outcome.err (Err.fatal 3 "y"))])).out = .abort 1 "x\ny" := by
  have H := c4_exit_merge
  refine ⟨by decide, by decide, by decide,
    H.2.2.2.1 2 3 (by decide) (by decide) (by decide), ?_⟩
  have h6 := (H.2.2.2.2.2 [] [(none, "a", Outcome.err (Err.msg "x")),
    (none, "b", Outcome.err (Err.fatal 3 "y"))]).1 (by decide)
  exact h6

/-- C1: for a target adapted by the drivers whose identity is not yet
registered, running a batch containing it twice (two separate driver calls)
executes the body exactly once: the first call runs the body, the second call
invokes `RunDependency` without re-running the body, leaves the outcome and
registry unchanged, and that second `RunDependency` call returns exactly the
cached error value — including its nil-ness — that the first execution
produced. -/
theorem c1_target_runs_once (t : FnType) (tid : String) (body : Outcome)
    (hn hc he : Bool) (hshape : checkShape t = some (hn, hc, he))
    (hnp : body.isPanic = false) (w0 : World) (h0 : wlookup tid w0 = none) :
    (ctxDeps w0 [GoVal.fn t tid body]).log = [.invoke tid, .run tid] ∧
    (ctxDeps (ctxDeps w0 [GoVal.fn t tid body]).world [GoVal.fn t tid body]).log
      = [.invoke tid] ∧
    (ctxDeps (ctxDeps w0 [GoVal.fn t tid body]).world [GoVal.fn t tid body]).out
      = (ctxDeps w0 [GoVal.fn t tid body]).out ∧
    (ctxDeps (ctxDeps w0 [GoVal.fn t tid body]).world [GoVal.fn t tid body]).world
      = (ctxDeps w0 [GoVal.fn t tid body]).world ∧
    (runDep (.target tid) (ctxDeps w0 [GoVal.fn t tid body]).world).res
      = .ret (outcomeErr (wrapOutcome he body)) ∧
    (runDep (.target tid) (ctxDeps w0 [GoVal.fn t tid body]).world).log
      = [.invoke tid] := by
  cases body with
  | panic v => simp [Outcome.isPanic] at hnp
  | ok =>
    simp [ctxDeps, makeDependencies, makeDependency, hshape, needTargetDep, h0,
      wlookup, runWorkers, runDep, wset, aggregate, wrapOutcome, outcomeErr]
  | err e =>
    cases he with
    | false =>
      simp [ctxDeps, makeDependencies, makeDependency, hshape, needTargetDep, h0,
        wlookup, runWorkers, runDep, wset, aggregate, wrapOutcome, outcomeErr]
    | true =>
      by_cases hc2 : (0 : Int) < ExitStatus e <;>
        simp [ctxDeps, makeDependencies, makeDependency, hshape, needTargetDep, h0,
          wlookup, runWorkers, runDep, wset, aggregate, wrapOutcome, outcomeErr,
          depName_custom, Dependency.depName, labelMsg, changeExit_zero_left, hc2]

/-- Witness for C1: a `func(context.Context) error` target named `T` whose
body returns the error "boom", run twice from the empty registry. -/
theorem c1_witness :
    checkShape ⟨[ParamKind.ctxParam], [RetKind.errRet]⟩ = some (false, true, true) ∧
    (Outcome.err (Err.msg "boom")).isPanic = false ∧
    wlookup "T" [] = none ∧
    (ctxDeps [] [GoVal.fn ⟨[ParamKind.ctxParam], [RetKind.errRet]⟩ "T"
        (Outcome.err (Err.msg "boom"))]).log = [Event.invoke "T", Event.run "T"] ∧
    (ctxDeps (ctxDeps [] [GoVal.fn ⟨[ParamKind.ctxParam], [RetKind.errRet]⟩ "T"
        (Outcome.err (Err.msg "boom"))]).world
      [GoVal.fn ⟨[ParamKind.ctxParam], [RetKind.errRet]⟩ "T"
        (Outcome.err (Err.msg "boom"))]).log = [Event.invoke "T"] ∧
    (runDep (.target "T")
        (ctxDeps [] [GoVal.fn ⟨[ParamKind.ctxParam], [RetKind.errRet]⟩ "T"
          (Outcome.err (Err.msg "boom"))]).world).res
      = .ret (some (Err.msg "boom")) := by
  have H := c1_target_runs_once ⟨[ParamKind.ctxParam], [RetKind.errRet]⟩ "T"
    (Outcome.err (Err.msg "boom")) false true true rfl rfl [] rfl
  exact ⟨rfl, rfl, rfl, H.1, H.2.1, H.2.2.2.2.1⟩

/-- C9: on a live procedure instance, every call with a given name returns
the same product (the second `newProduct` call returns the same reference and
leaves the state unchanged); running that product from fresh executes the
implementation exactly once for that name and caches its error (the second
run returns the identical cached error without running the implementation or
changing any state); products with different names on the same procedure, and
procedures with different identities, are untouched by operations on the
(pid, nm) product. -/
theorem c9_procedure_products (pw : ProcWorld) (pid : Nat) (nm : String) (ps : ProcState)
    (h : plookup pid pw = some ps) :
    ((newProduct (newProduct pw pid nm).2 pid nm).1 = (pid, nm) ∧
     (newProduct (newProduct pw pid nm).2 pid nm).2 = (newProduct pw pid nm).2) ∧
    (prodGet nm ps.products = none → (ps.impl nm).isPanic = false →
      (runProduct ((newProduct pw pid nm).2) pid nm).1
        = .ret (outcomeErr (ps.impl nm)) ∧
      (runProduct ((newProduct pw pid nm).2) pid nm).2.2 = [(pid, nm)] ∧
      (runProduct (runProduct ((newProduct pw pid nm).2) pid nm).2.1 pid nm).1
        = .ret (outcomeErr (ps.impl nm)) ∧
      (runProduct (runProduct ((newProduct pw pid nm).2) pid nm).2.1 pid nm).2.1
        = (runProduct ((newProduct pw pid nm).2) pid nm).2.1 ∧
      (runProduct (runProduct ((newProduct pw pid nm).2) pid nm).2.1 pid nm).2.2
        = []) ∧
    (∀ nm', nm' ≠ nm →
      prodStateIn ((newProduct pw pid nm).2) pid nm' = prodStateIn pw pid nm' ∧
      prodStateIn ((runProduct pw pid nm).2.1) pid nm' = prodStateIn pw pid nm') ∧
    (∀ qid, qid ≠ pid →
      plookup qid ((newProduct pw pid nm).2) = plookup qid pw ∧
      plookup qid ((runProduct pw pid nm).2.1) = plookup qid pw) := by
  refine ⟨?_, ?_, ?_, ?_⟩
  · -- (a) creating the same name twice yields the same product and state
    cases hg : prodGet nm ps.products with
    | some st => simp [newProduct, h, hg]
    | none =>
      have h1 : plookup pid (pset pid ⟨ps.impl, (nm, ⟨false, none⟩) :: ps.products⟩ pw)
          = some ⟨ps.impl, (nm, ⟨false, none⟩) :: ps.products⟩ :=
        plookup_pset_eq pid _ pw ps h
      simp [newProduct, h, hg, h1, prodGet]
  · -- (b) run-once with cached error
    intro hg himpl
    have h1 : plookup pid (pset pid ⟨ps.impl, (nm, ⟨false, none⟩) :: ps.products⟩ pw)
        = some ⟨ps.impl, (nm, ⟨false, none⟩) :: ps.products⟩ :=
      plookup_pset_eq pid _ pw ps h
    cases hi : ps.impl nm with
    | panic v => rw [hi] at himpl; simp [Outcome.isPanic] at himpl
    | ok =>
      have h2 : plookup pid (pset pid ⟨ps.impl, (nm, ⟨true, none⟩) :: ps.products⟩
          (pset pid ⟨ps.impl, (nm, ⟨false, none⟩) :: ps.products⟩ pw))
          = some ⟨ps.impl, (nm, ⟨true, none⟩) :: ps.products⟩ :=
        plookup_pset_eq pid _ _ _ h1
      simp [newProduct, h, hg, runProduct, h1, h2, prodGet, prodSet, hi, outcomeErr]
    | err e =>
      have h2 : plookup pid (pset pid ⟨ps.impl, (nm, ⟨true, some e⟩) :: ps.products⟩
          (pset pid ⟨ps.impl, (nm, ⟨false, none⟩) :: ps.products⟩ pw))
          = some ⟨ps.impl, (nm, ⟨true, some e⟩) :: ps.products⟩ :=
        plookup_pset_eq pid _ _ _ h1
      simp [newProduct, h, hg, runProduct, h1, h2, prodGet, prodSet, hi, outcomeErr]
  · -- (c) other names on the same procedure are untouched
    intro nm' hne
    constructor
    · cases hg : prodGet nm ps.products with
      | some st => simp [newProduct, h, hg]
      | none =>
        have h1 : plookup pid (pset pid ⟨ps.impl, (nm, ⟨false, none⟩) :: ps.products⟩ pw)
            = some ⟨ps.impl, (nm, ⟨false, none⟩) :: ps.products⟩ :=
          plookup_pset_eq pid _ pw ps h
        simp [newProduct, h, hg, prodStateIn, h1, prodGet, Ne.symm hne]
    · cases hg : prodGet nm ps.products with
      | none => simp [runProduct, h, hg]
      | some st =>
        cases hd : st.done with
        | true => simp [runProduct, h, hg, hd]
        | false =>
          cases hi : ps.impl nm with
          | ok =>
            have h1 : plookup pid (pset pid
                ⟨ps.impl, prodSet nm ⟨true, none⟩ ps.products⟩ pw)
                = some ⟨ps.impl, prodSet nm ⟨true, none⟩ ps.products⟩ :=
              plookup_pset_eq pid _ pw ps h
            simp [runProduct, h, hg, hd, hi, prodStateIn, h1,
              prodGet_prodSet_ne nm nm' _ _ hne]
          | err e =>
            have h1 : plookup pid (pset pid
                ⟨ps.impl, prodSet nm ⟨true, some e⟩ ps.products⟩ pw)
                = some ⟨ps.impl, prodSet nm ⟨true, some e⟩ ps.products⟩ :=
              plookup_pset_eq pid _ pw ps h
            simp [runProduct, h, hg, hd, hi, prodStateIn, h1,
              prodGet_prodSet_ne nm nm' _ _ hne]
          | panic v =>
            have h1 : plookup pid (pset pid
                ⟨ps.impl, prodSet nm ⟨true, st.err⟩ ps.products⟩ pw)
                = some ⟨ps.impl, prodSet nm ⟨true, st.err⟩ ps.products⟩ :=
              plookup_pset_eq pid _ pw ps h
            simp [runProduct, h, hg, hd, hi, prodStateIn, h1,
              prodGet_prodSet_ne nm nm' _ _ hne]
  · -- (d) other procedure instances are untouched
    intro qid hq
    constructor
    · cases hg : prodGet nm ps.products with
      | some st => simp [newProduct, h, hg]
      | none => simp [newProduct, h, hg, plookup_pset_ne pid qid _ pw hq]
    · cases hg : prodGet nm ps.products with
      | none => simp [runProduct, h, hg]
      | some st =>
        cases hd : st.done with
        | true => simp [runProduct, h, hg, hd]
        | false =>
          cases hi : ps.impl nm with
          | ok => simp [runProduct, h, hg, hd, hi, plookup_pset_ne pid qid _ pw hq]
          | err e => simp [runProduct, h, hg, hd, hi, plookup_pset_ne pid qid _ pw hq]
          | panic v => simp [runProduct, h, hg, hd, hi, plookup_pset_ne pid qid _ pw hq]

/-- Witness for C9: a single procedure (id 0) whose implementation fails with
"e"; the product "x" is created, run twice (the second run returns the cached
error and runs nothing), the product "y" and the procedure id 1 are
untouched. -/
theorem c9_witness :
    plookup 0 [(0, ProcState.mk (fun _ => Outcome.err (Err.msg "e")) [])]
      = some (ProcState.mk (fun _ => Outcome.err (Err.msg "e")) []) ∧
    (runProduct ((newProduct [(0, ProcState.mk (fun _ => Outcome.err (Err.msg "e")) [])]
        0 "x").2) 0 "x").1 = .ret (some (Err.msg "e")) ∧
    (runProduct (runProduct ((newProduct
        [(0, ProcState.mk (fun _ => Outcome.err (Err.msg "e")) [])] 0 "x").2)
        0 "x").2.1 0 "x").2.2 = [] ∧
    prodStateIn ((runProduct [(0, ProcState.mk (fun _ => Outcome.err (Err.msg "e")) [])]
        0 "x").2.1) 0 "y"
      = prodStateIn [(0, ProcState.mk (fun _ => Outcome.err (Err.msg "e")) [])] 0 "y" ∧
    plookup 1 ((newProduct [(0, ProcState.mk (fun _ => Outcome.err (Err.msg "e")) [])]
        0 "x").2)
      = plookup 1 [(0, ProcState.mk (fun _ => Outcome.err (Err.msg "e")) [])] := by
  have H := c9_procedure_products
    [(0, ProcState.mk (fun _ => Outcome.err (Err.msg "e")) [])] 0 "x"
    (ProcState.mk (fun _ => Outcome.err (Err.msg "e")) []) rfl
  exact ⟨rfl, (H.2.1 rfl rfl).1, (H.2.1 rfl rfl).2.2.2.2,
    (H.2.2.1 "y" (by decide)).2, (H.2.2.2 1 (by decide)).1⟩

end Mage
